import Mathlib

/-!
# Verification of the Tetra3d vertex/triangle processing pipeline

A shallow embedding, over exact rational arithmetic, of the parts of
`model.go` and `mesh.go` that the specification's claims concern:
per-vertex skinning (`Model.skinVertex`), the per-frame vertex pipeline
(`Model.ProcessVertices`), dynamic batching (`Model.DynamicBatchAdd` /
`Model.DynamicBatchRemove`), static merge and AO-bake guards, bounding
volume computation (`Mesh.UpdateBounds`), and triangle normal
recalculation (`Triangle.RecalculateNormal`).

Scalars are modelled as `ℚ`, the exact idealization of the source's
`float64` arithmetic; all defining formulas are transcribed from the Go
source.  Where the result of a square root is needed (bounding-sphere
radius, vector normalization) we work with the squared magnitude, which
determines the source value uniquely since `Real.sqrt` is monotone on
nonnegatives.
-/

namespace Tetra3d

/-- A 3-component vector (the `vector.Vector` values used by the source,
restricted to length 3 as the geometry code uses them). -/
structure Vec3 where
  x : ℚ
  y : ℚ
  z : ℚ
deriving DecidableEq, Repr

/-- A 4-component clip-space vector: the result of projecting a point
through a 4×4 matrix, carrying the `w` component. -/
structure Vec4 where
  x : ℚ
  y : ℚ
  z : ℚ
  w : ℚ
deriving DecidableEq, Repr

namespace Vec3

def sub (a b : Vec3) : Vec3 := ⟨a.x - b.x, a.y - b.y, a.z - b.z⟩

def add (a b : Vec3) : Vec3 := ⟨a.x + b.x, a.y + b.y, a.z + b.z⟩

def smul (k : ℚ) (a : Vec3) : Vec3 := ⟨k * a.x, k * a.y, k * a.z⟩

/-- Cross product, as computed by the vector library's `Cross` for
3-component vectors. -/
def cross (a b : Vec3) : Vec3 :=
  ⟨a.y * b.z - a.z * b.y, a.z * b.x - a.x * b.z, a.x * b.y - a.y * b.x⟩

def dot (a b : Vec3) : ℚ := a.x * b.x + a.y * b.y + a.z * b.z

/-- Squared Euclidean distance between two points
(`fastVectorDistanceSquared` in the source). -/
def distSq (a b : Vec3) : ℚ := dot (sub a b) (sub a b)

def zero : Vec3 := ⟨0, 0, 0⟩

end Vec3

/-- A 4×4 matrix; `m r c` is the entry at row `r`, column `c`.  The
source stores matrices row-major with the translation in row 3 (see
`base.SetRow(3, vector.Vector{p[0], p[1], p[2], 1})` in
`ProcessVertices`), i.e. vectors multiply as row vectors. -/
abbrev Matrix4 := Fin 4 → Fin 4 → ℚ

namespace Matrix4

/-- The zero matrix: the result of `Matrix4.Clear()`, used to start the
weighted accumulation in `skinVertex`. -/
def clear : Matrix4 := fun _ _ => 0

/-- Entrywise sum (`Matrix4.Add`), used to accumulate weighted bone
influences. -/
def add (a b : Matrix4) : Matrix4 := fun r c => a r c + b r c

/-- Entrywise scale (`Matrix4.ScaleByScalar`). -/
def scaleByScalar (m : Matrix4) (k : ℚ) : Matrix4 := fun r c => k * m r c

/-- Modelled from the spec: `fastMatrixMultVecW` / `VectorPool.MultVecW`
are not among the provided source files.  Following the clip-space
projection of §4.3 and the row-vector convention visible in the source
(translation stored in row 3), the product of the point `(v, 1)` as a row
vector with the matrix: component `i` is `Σ_j v_j·m[j][i] + m[3][i]`. -/
def multVecW (m : Matrix4) (v : Vec3) : Vec4 :=
  ⟨v.x * m 0 0 + v.y * m 1 0 + v.z * m 2 0 + m 3 0,
   v.x * m 0 1 + v.y * m 1 1 + v.z * m 2 1 + m 3 1,
   v.x * m 0 2 + v.y * m 1 2 + v.z * m 2 2 + m 3 2,
   v.x * m 0 3 + v.y * m 1 3 + v.z * m 2 3 + m 3 3⟩

/-- The identity matrix. -/
def id4 : Matrix4 := fun r c => if r = c then 1 else 0

end Matrix4

/-! ## Skinning (`Model.skinVertex`, model.go lines 364–405) -/

/-- One (bone, weight) pair of a skinned vertex: the bone is represented
by its cached influence matrix (`bone.boneInfluence`), the weight by the
entry of `Mesh.VertexWeights` for this vertex. -/
structure BoneEntry where
  influence : Matrix4
  weight : ℚ

/-- The loop of `skinVertex` that fills `model.skinMatrix`: starting
from the cleared (zero) matrix, iterate the vertex's (bone, weight)
pairs; a zero weight is skipped (`continue`); a weight of exactly 1
replaces the accumulator with that bone's influence matrix and stops
(`break`); otherwise the influence scaled by the weight is added. -/
def skinMatrixLoop (acc : Matrix4) : List BoneEntry → Matrix4
  | [] => acc
  | e :: rest =>
    if e.weight = 0 then skinMatrixLoop acc rest
    else if e.weight = 1 then e.influence
    else skinMatrixLoop (acc.add (e.influence.scaleByScalar e.weight)) rest

/-- The final skin matrix `skinVertex` computes for a vertex with the given
(bone, weight) entries. -/
def computeSkinMatrix (entries : List BoneEntry) : Matrix4 :=
  skinMatrixLoop Matrix4.clear entries

/-- The transformed position returned by `skinVertex`:
`skinVectorPool.MultVecW(model.skinMatrix, model.Mesh.VertexPositions[vertID])`.
The `Vec4` result's first three components are the skinned world
position used by the pipeline. -/
def skinVertexPos (entries : List BoneEntry) (pos : Vec3) : Vec4 :=
  (computeSkinMatrix entries).multVecW pos

/-! ## The vertex pipeline (`Model.ProcessVertices`, model.go lines 407–597) -/

/-- The per-`MeshPart`, per-frame working record for one triangle
(`sortingTriangle` in the source): triangle id, a scalar depth key, and
the rendered/culled flag. -/
structure SortingTriangle where
  id : Nat
  depth : ℚ
  rendered : Bool
deriving DecidableEq, Repr

/-- The constant `math.MaxFloat64`, the initial value of `depth` on the non-skinned
path, exactly: `(2 − 2⁻⁵²)·2¹⁰²³ = (2⁵³ − 1)·2⁹⁷¹`. -/
def maxFloat64 : ℚ := (2 ^ 53 - 1) * 2 ^ 971

/-- The constant `math.MaxFloat32`, the initial value of `depth` on the skinned
path, exactly: `(2 − 2⁻²³)·2¹²⁷ = (2²⁴ − 1)·2¹⁰⁴`. -/
def maxFloat32 : ℚ := (2 ^ 24 - 1) * 2 ^ 104

/-- The optional user vertex hook (`Model.VertexTransformFunction`),
applied to a world-space vertex position and the vertex's index; `none`
when the Model carries no hook. -/
def applyTransformFunc (tf : Option (Vec3 → Nat → Vec3)) (v : Vec3) (i : Nat) : Vec3 :=
  match tf with
  | none => v
  | some f => f v i

/-- The per-vertex visibility condition of both paths:
`w >= 0 && z < far` (`transformed[3] >= 0 && transformed[2] < far` on
the non-skinned path, `w >= 0 && z < far` on the skinned path). -/
def vertexInBounds (v : Vec4) (far : ℚ) : Bool :=
  decide (0 ≤ v.w) && decide (v.z < far)

/-- Whether at least one of the triangle's three projected vertices is
in bounds — the negation of the `outOfBounds` flag both paths compute. -/
def triangleVisible (pv : Fin 3 → Vec4) (far : ℚ) : Bool :=
  vertexInBounds (pv 0) far || vertexInBounds (pv 1) far || vertexInBounds (pv 2) far

/-- The three projected vertices of a triangle on the non-skinned path:
each mesh vertex position, passed through the optional transform hook,
then through the combined `mvp` matrix (`fastMatrixMultVecW(mvp, v0)`). -/
def projectedVertsNonSkinned (mvp : Matrix4) (positions : Nat → Vec3)
    (tf : Option (Vec3 → Nat → Vec3)) (triID : Nat) : Fin 3 → Vec4 :=
  fun i => mvp.multVecW (applyTransformFunc tf (positions (triID * 3 + i)) (triID * 3 + i))

/-- One iteration of the non-skinned triangle loop (model.go lines
531–575).  The source first sets `rendered = true`, then computes the
three projected vertices, tracking `outOfBounds` and the minimum `w`
(starting from `math.MaxFloat64`); if `outOfBounds` it resets
`rendered = false` and `continue`s (leaving `depth` untouched),
otherwise it stores the accumulated minimum as the depth key. -/
def processTriNonSkinned (mvp : Matrix4) (far : ℚ) (positions : Nat → Vec3)
    (tf : Option (Vec3 → Nat → Vec3)) (tri : SortingTriangle) : SortingTriangle :=
  let pv := projectedVertsNonSkinned mvp positions tf tri.id
  let depth := min (min (min maxFloat64 (pv 0).w) (pv 1).w) (pv 2).w
  if triangleVisible pv far then { tri with rendered := true, depth := depth }
  else { tri with rendered := false }

/-- The per-vertex (bone, weight) entries of a skinned Model
(`model.bones[vertID]` paired with `model.Mesh.VertexWeights[vertID]`),
indexed by vertex index. -/
abbrev BoneData := Nat → List BoneEntry

/-- The three projected vertices of a triangle on the skinned path: the
skinned position from `skinVertex`, passed through the optional
transform hook, then through the view-projection matrix
(`fastMatrixMultVecW(vpMatrix, vertPos)`). -/
def projectedVertsSkinned (vpMatrix : Matrix4) (boneData : BoneData) (positions : Nat → Vec3)
    (tf : Option (Vec3 → Nat → Vec3)) (triID : Nat) : Fin 3 → Vec4 :=
  fun i =>
    let p := skinVertexPos (boneData (triID * 3 + i)) (positions (triID * 3 + i))
    vpMatrix.multVecW (applyTransformFunc tf ⟨p.x, p.y, p.z⟩ (triID * 3 + i))

/-- One iteration of the skinned triangle loop (model.go lines
450–492).  The source computes the three projected vertices, tracking
`outOfBounds` and the minimum `w` (starting from `math.MaxFloat32`); if
`outOfBounds` it sets `rendered = false` and `continue`s, otherwise it
stores the depth key.  Unlike the non-skinned loop, the skinned loop
never assigns `rendered = true`: a triangle that passes the visibility
test keeps whatever `rendered` flag it already had. -/
def processTriSkinned (vpMatrix : Matrix4) (far : ℚ) (boneData : BoneData)
    (positions : Nat → Vec3) (tf : Option (Vec3 → Nat → Vec3))
    (tri : SortingTriangle) : SortingTriangle :=
  let pv := projectedVertsSkinned vpMatrix boneData positions tf tri.id
  let depth := min (min (min maxFloat32 (pv 0).w) (pv 1).w) (pv 2).w
  if triangleVisible pv far then { tri with depth := depth }
  else { tri with rendered := false }

/-- Modelled from the spec: the `TriangleSortMode` values referenced by
`ProcessVertices` (`TriangleSortModeBackToFront`,
`TriangleSortModeFrontToBack`); the type's declaration is not among the
provided source files.  §4.3.5 enumerates exactly these two modes. -/
inductive TriangleSortMode
  | backToFront
  | frontToBack
deriving DecidableEq, Repr

/-- The sort mode used by `ProcessVertices`: the MeshPart's material's
`TriangleSortMode` when a material is present, else the default
`TriangleSortModeBackToFront`. -/
def effectiveSortMode (materialSortMode : Option TriangleSortMode) : TriangleSortMode :=
  materialSortMode.getD TriangleSortMode.backToFront

/-- Comparison for `sort.SliceStable` in back-to-front mode: the Go
`less` is `depth i > depth j`; the corresponding non-strict order a
stable sort produces is `depth i ≥ depth j`. -/
def backToFrontLE (a b : SortingTriangle) : Bool := decide (b.depth ≤ a.depth)

/-- Comparison for `sort.SliceStable` in front-to-back mode: the Go
`less` is `depth i < depth j`; the corresponding non-strict order is
`depth i ≤ depth j`. -/
def frontToBackLE (a b : SortingTriangle) : Bool := decide (a.depth ≤ b.depth)

/-- The sort step at the end of `ProcessVertices` (model.go lines
579–595): a stable sort of the part's sorting triangles on the depth
key, descending for back-to-front and ascending for front-to-back.
`sort.SliceStable` is embedded as `List.mergeSort`, which produces the
same list: a stable sort's output is uniquely determined by the input
order and the comparison. -/
def sortTriangles (mode : TriangleSortMode) (l : List SortingTriangle) :
    List SortingTriangle :=
  match mode with
  | .backToFront => l.mergeSort backToFrontLE
  | .frontToBack => l.mergeSort frontToBackLE

/-- The triangle-processing loop of `ProcessVertices` before the sort:
the non-skinned per-triangle step mapped over the part's sorting
triangles. -/
def processVerticesNonSkinnedUnsorted (mvp : Matrix4) (far : ℚ) (positions : Nat → Vec3)
    (tf : Option (Vec3 → Nat → Vec3)) (tris : List SortingTriangle) :
    List SortingTriangle :=
  tris.map (processTriNonSkinned mvp far positions tf)

/-- Embeds `ProcessVertices` on the non-skinned path: process every triangle,
then stably sort by depth in the part's effective mode. -/
def processVerticesNonSkinned (mvp : Matrix4) (far : ℚ) (positions : Nat → Vec3)
    (tf : Option (Vec3 → Nat → Vec3)) (materialSortMode : Option TriangleSortMode)
    (tris : List SortingTriangle) : List SortingTriangle :=
  sortTriangles (effectiveSortMode materialSortMode)
    (processVerticesNonSkinnedUnsorted mvp far positions tf tris)

/-- The triangle-processing loop of `ProcessVertices` on the skinned
path, before the sort. -/
def processVerticesSkinnedUnsorted (vpMatrix : Matrix4) (far : ℚ) (boneData : BoneData)
    (positions : Nat → Vec3) (tf : Option (Vec3 → Nat → Vec3))
    (tris : List SortingTriangle) : List SortingTriangle :=
  tris.map (processTriSkinned vpMatrix far boneData positions tf)

/-- Embeds `ProcessVertices` on the skinned path: process every triangle, then
stably sort by depth in the part's effective mode. -/
def processVerticesSkinned (vpMatrix : Matrix4) (far : ℚ) (boneData : BoneData)
    (positions : Nat → Vec3) (tf : Option (Vec3 → Nat → Vec3))
    (materialSortMode : Option TriangleSortMode) (tris : List SortingTriangle) :
    List SortingTriangle :=
  sortTriangles (effectiveSortMode materialSortMode)
    (processVerticesSkinnedUnsorted vpMatrix far boneData positions tf tris)

/-! ## Dynamic batching (`Model.DynamicBatchAdd` / `Remove`, model.go
lines 161–241) -/

/-- Models are identified by handles; the triangle count of each
Model's mesh (`len(other.Mesh.Triangles)`) is supplied as a function of
the handle. -/
abbrev ModelId := Nat

/-- MeshParts of the owning Model are identified by handles. -/
abbrev PartId := Nat

/-- The batching-relevant state around one owning Model: its
`DynamicBatchModels` map from MeshPart to the ordered slice of batched
Models, and the `DynamicBatchOwner` back-references of all Models,
kept as an association list (a Model absent from `owners` has a `nil`
owner). -/
structure BatchState where
  batchMap : List (PartId × List ModelId)
  owners : List (ModelId × ModelId)
deriving DecidableEq, Repr

/-- Modelled from the spec: `maxTriangleCount` is declared outside the
provided source files.  §3 bounds a part by "the addressable
vertex-index range of the target rasterizer, e.g. 65535/3", and the
comment in `Model.Merge` names the value: 21845. -/
def maxTriangleCount : Nat := 21845

/-- Embeds `Model.modelAlreadyDynamicallyBatched`: whether the candidate
appears in any of the owner's `DynamicBatchModels` slices. -/
def alreadyBatched (st : BatchState) (m : ModelId) : Bool :=
  st.batchMap.any (fun e => e.2.contains m)

/-- Embeds `Model.DynamicBatchTriangleCount`: the sum of the triangle counts
of every Model over all of the owner's batch slices, recomputed from
the map each call. -/
def batchTriangleCount (tc : ModelId → Nat) (st : BatchState) : Nat :=
  (st.batchMap.map (fun e => (e.2.map tc).sum)).sum

/-- Appending a Model to the slice of one MeshPart of the batch map,
creating the map entry first when absent — the
`if _, exists := ...; !exists` block followed by `append` in
`DynamicBatchAdd`. -/
def addToBatchMap (mp : PartId) (m : ModelId) :
    List (PartId × List ModelId) → List (PartId × List ModelId)
  | [] => [(mp, [m])]
  | e :: rest => if e.1 = mp then (e.1, e.2 ++ [m]) :: rest else e :: addToBatchMap mp m rest

/-- Recording `other.DynamicBatchOwner = model`. -/
def setOwner (m owner : ModelId) (l : List (ModelId × ModelId)) : List (ModelId × ModelId) :=
  (m, owner) :: l.filter (fun e => e.1 ≠ m)

/-- Clearing `m.DynamicBatchOwner = nil`. -/
def clearOwner (m : ModelId) (l : List (ModelId × ModelId)) : List (ModelId × ModelId) :=
  l.filter (fun e => e.1 ≠ m)

/-- Embeds `Model.DynamicBatchAdd(meshPart, batchedModels...)`: iterate the
candidates in order; a candidate equal to the owner or already batched
is skipped (`continue`); if the current aggregate triangle count plus
the candidate's would exceed `maxTriangleCount` the call returns the
budget error **immediately**, keeping every mutation made for earlier
candidates; otherwise the candidate is appended to the part's slice and
its owner reference set.  The returned flag is `true` iff the error was
returned. -/
def dynamicBatchAdd (tc : ModelId → Nat) (self : ModelId) (mp : PartId)
    (batched : List ModelId) (st : BatchState) : BatchState × Bool :=
  match batched with
  | [] => (st, false)
  | other :: rest =>
    if other = self ∨ alreadyBatched st other = true then
      dynamicBatchAdd tc self mp rest st
    else if maxTriangleCount < batchTriangleCount tc st + tc other then
      (st, true)
    else
      dynamicBatchAdd tc self mp rest
        { batchMap := addToBatchMap mp other st.batchMap,
          owners := setOwner other self st.owners }

/-- Removing the first occurrence of a Model from one slice (the inner
loop of `DynamicBatchRemove`, which splices index `i` out and
`break`s). -/
def removeFirst (m : ModelId) : List ModelId → List ModelId
  | [] => []
  | x :: rest => if x = m then rest else x :: removeFirst m rest

/-- For one Model to remove: every MeshPart slice that contains it has
its first occurrence spliced out (the `break` only exits the inner
loop, so every part of the map is visited); the second component
reports whether it was found anywhere, in which case its owner
reference was cleared. -/
def removeModelFromMap (m : ModelId) (bm : List (PartId × List ModelId)) :
    List (PartId × List ModelId) × Bool :=
  (bm.map (fun e => (e.1, if e.2.contains m then removeFirst m e.2 else e.2)),
   bm.any (fun e => e.2.contains m))

/-- The body of `DynamicBatchRemove`'s outer loop for one Model to
remove: splice it out of every slice that contains it and clear its
owner reference when it was found. -/
def dynamicBatchRemoveStep (s : BatchState) (m : ModelId) : BatchState :=
  { batchMap := (removeModelFromMap m s.batchMap).1,
    owners := if (removeModelFromMap m s.batchMap).2 then clearOwner m s.owners
              else s.owners }

/-- Embeds `Model.DynamicBatchRemove(batched...)`: remove each given Model
from the batch map and clear its owner reference where found; finally
prune MeshPart entries whose slice became empty. -/
def dynamicBatchRemove (batched : List ModelId) (st : BatchState) : BatchState :=
  let st' := batched.foldl dynamicBatchRemoveStep st
  { st' with batchMap := st'.batchMap.filter (fun e => !e.2.isEmpty) }

/-! ## Static merge and bake guards (model.go lines 249–261, 629–641,
767–773) -/

/-- The `totalSize` computed at the top of `Model.Merge`: the summed
vertex counts (`len(other.Mesh.VertexPositions)`) of the models to
merge, skipping any model identical to the caller. -/
def mergeTotalSize (self : ModelId) (models : List (ModelId × Nat)) : Nat :=
  (models.filter (fun m => m.1 ≠ self)).foldl (fun acc m => acc + m.2) 0

/-- Embeds `Model.Merge` up to its early return: when `totalSize == 0` the
function returns before touching any state; otherwise it runs the
merge body (buffer reallocation, vertex copying, bounds/pool updates),
abstracted here as `body` since the zero-vertex claim never reaches
it. -/
def mergeGuard (self : ModelId) (models : List (ModelId × Nat)) (body : α → α) (st : α) : α :=
  if mergeTotalSize self models = 0 then st else body st

/-- Embeds `Model.BakeAO` up to its early return: when the Model has no mesh
or the target color channel is negative the function returns before
touching any state; otherwise it runs the bake body
(`ensureEnoughVertexColorChannels` and the AO passes), abstracted as
`body` since the negative-channel claim never reaches it. -/
def bakeAOGuard (meshIsNil : Bool) (targetChannel : ℤ) (body : α → α) (st : α) : α :=
  if meshIsNil || decide (targetChannel < 0) then st else body st

/-! ## Bone reassignment (`Model.ReassignBones`, model.go lines
332–362) -/

/-- The skinning bindings of a Model that `ReassignBones` reads and
writes: the armature root reference and the per-vertex lists of bone
references.  A bone reference is the bone Node's name, `none` standing
for a nil pointer. -/
structure SkinState where
  skinRoot : Option ModelId
  bones : List (List (Option String))
deriving DecidableEq, Repr

/-- Rebinding the bone references of one vertex through the name → bone
map built from the new armature (`boneMap[...name]`; a name missing
from a Go map yields the zero value, i.e. a nil bone).  Reading `.name`
of a nil bone reference would panic, which the `Option` failure
represents. -/
def rebindVertexBones (boneMap : String → Option String) :
    List (Option String) → Option (List (Option String))
  | [] => some []
  | b :: rest =>
    match b with
    | none => none
    | some n =>
      match rebindVertexBones boneMap rest with
      | none => none
      | some rest' => some (boneMap n :: rest')

/-- Embeds `Model.ReassignBones(armatureRoot)`: a Model with an empty
per-vertex bone list returns immediately; then a bone passed as the
root panics (`none` result); otherwise the skin root is repointed and
every bone reference rebound by name.  `boneMap` abstracts the mapping
assembled from `armatureRoot.ChildrenRecursive()` (code outside the
provided files); `rootIsBone` is `armatureRoot.IsBone()`. -/
def reassignBones (boneMap : String → Option String) (rootIsBone : Bool)
    (rootId : ModelId) (st : SkinState) : Option SkinState :=
  if st.bones.isEmpty then some st
  else if rootIsBone then none
  else
    match (st.bones.mapM (rebindVertexBones boneMap) : Option _) with
    | none => none
    | some bs => some { skinRoot := some rootId, bones := bs }

/-! ## Mesh bounds (`Mesh.UpdateBounds` / `Mesh.ApplyMatrix`, mesh.go
lines 73–117) -/

/-- Modelled from the spec: the vector library's point transform
(`matrix.MultVec`), not among the provided source files — the affine
action of the matrix on a point, i.e. the first three components of the
row-vector product with translation applied. -/
def Matrix4.multVecPoint (m : Matrix4) (v : Vec3) : Vec3 :=
  let r := m.multVecW v
  ⟨r.x, r.y, r.z⟩

/-- One axis of the extent-update in `UpdateBounds`:
`if v < extent0 { extent0 = v } else if v > extent1 { extent1 = v }`.
Note the `else`: a new minimum is never tested as a maximum. -/
def axisStep (e0 e1 q : ℚ) : ℚ × ℚ :=
  if q < e0 then (q, e1) else if e1 < q then (e0, q) else (e0, e1)

/-- The extent-update of `UpdateBounds` for one vertex, applied on all
three axes. -/
def extentStep (e : Vec3 × Vec3) (v : Vec3) : Vec3 × Vec3 :=
  let px := axisStep e.1.x e.2.x v.x
  let py := axisStep e.1.y e.2.y v.y
  let pz := axisStep e.1.z e.2.z v.z
  (⟨px.1, py.1, pz.1⟩, ⟨px.2, py.2, pz.2⟩)

/-- The `(extent0, extent1)` pair computed by `UpdateBounds`: the
per-vertex update folded over the mesh's vertices, starting — as in the
source — from the **zero vectors**, not from the first vertex. -/
def updateBoundsExtents (verts : List Vec3) : Vec3 × Vec3 :=
  verts.foldl extentStep (Vec3.zero, Vec3.zero)

/-- The bounding-sphere position set by `UpdateBounds`:
`extent0.Add(extent1).Scale(0.5)`. -/
def boundingSpherePosition (verts : List Vec3) : Vec3 :=
  let e := updateBoundsExtents verts
  Vec3.smul (1 / 2) (Vec3.add e.1 e.2)

/-- The square of the bounding-sphere radius set by `UpdateBounds`:
the source stores `extent1.Sub(extent0).Magnitude() / 2`; we track its
square `‖extent1 − extent0‖² / 4`, which determines it. -/
def boundingSphereRadiusSq (verts : List Vec3) : ℚ :=
  let e := updateBoundsExtents verts
  Vec3.dot (Vec3.sub e.2 e.1) (Vec3.sub e.2 e.1) / 4

/-- The mesh state that `UpdateBounds` and `ApplyMatrix` touch: the
vertex positions and the derived bounding sphere (radius kept as its
square). -/
structure MeshState where
  verts : List Vec3
  boundsPosition : Vec3
  boundsRadiusSq : ℚ
deriving DecidableEq, Repr

/-- Embeds `Mesh.UpdateBounds`: recompute the bounding sphere from the current
vertex positions. -/
def updateBounds (m : MeshState) : MeshState :=
  { m with
    boundsPosition := boundingSpherePosition m.verts
    boundsRadiusSq := boundingSphereRadiusSq m.verts }

/-- Embeds `Mesh.ApplyMatrix`: transform every vertex position by the matrix
(the per-triangle center recomputation is not part of this state), then
call `UpdateBounds`. -/
def applyMatrix (mat : Matrix4) (m : MeshState) : MeshState :=
  updateBounds { m with verts := m.verts.map mat.multVecPoint }

/-- One step of the spec's extent computation: componentwise minimum
and maximum. -/
def specExtentStep (e : Vec3 × Vec3) (u : Vec3) : Vec3 × Vec3 :=
  (⟨min e.1.x u.x, min e.1.y u.y, min e.1.z u.z⟩,
   ⟨max e.2.x u.x, max e.2.y u.y, max e.2.z u.z⟩)

/-- The extent of a nonempty set of points as the spec words it:
componentwise minimum and maximum **of the vertex positions alone**. -/
def specExtents : List Vec3 → Option (Vec3 × Vec3)
  | [] => none
  | v :: rest => some (rest.foldl specExtentStep (v, v))

/-- The spec's bounding-sphere center: the midpoint of the axis-aligned
extent of the vertex positions. -/
def specBoundsPosition (verts : List Vec3) : Option Vec3 :=
  (specExtents verts).map (fun e => Vec3.smul (1 / 2) (Vec3.add e.1 e.2))

/-- The square of the spec's bounding-sphere radius: half the length of
the extent's diagonal, squared. -/
def specBoundsRadiusSq (verts : List Vec3) : Option ℚ :=
  (specExtents verts).map (fun e => Vec3.dot (Vec3.sub e.2 e.1) (Vec3.sub e.2 e.1) / 4)

/-! ## Triangle normals (`Triangle.RecalculateNormal` /
`calculateNormal`, mesh.go lines 288–323) -/

/-- The vector that `calculateNormal(p1, p2, p3)` normalizes:
`v0 := p2.Sub(p1); v1 := p3.Sub(p2); cross, _ := v0.Cross(v1)`. -/
def calculateNormalCross (p1 p2 p3 : Vec3) : Vec3 :=
  Vec3.cross (p2.sub p1) (p3.sub p2)

/-- Modelled from the external `kvartborg/vector` library used by the
source: `Unit()` divides every component by the vector's magnitude with
no guard against a zero magnitude.  In exact arithmetic the magnitude
is zero iff the squared magnitude is zero, and then every component of
the result is the IEEE quotient `0/0`, i.e. NaN.  This predicate records
exactly when `cross.Unit()` produces NaN components. -/
def unitProducesNaN (v : Vec3) : Bool := decide (Vec3.dot v v = 0)

/-- The cross product named by the spec sentence: "the unit-length
cross product of (v1−v0) and (v2−v1)", where v0, v1, v2 are the
triangle's three vertex positions. -/
def specNormalDirection (v0 v1 v2 : Vec3) : Vec3 :=
  Vec3.cross (v1.sub v0) (v2.sub v1)

/-- Degeneracy as the spec words it: the three vertices are collinear —
the two edge vectors are parallel (one is a scalar multiple of the
other). -/
def collinearVerts (p1 p2 p3 : Vec3) : Prop :=
  ∃ k : ℚ, p3.sub p2 = Vec3.smul k (p2.sub p1) ∨ p2.sub p1 = Vec3.smul k (p3.sub p2)

/-! ## Ambient-occlusion proximity test (`Model.BakeAO`, model.go lines
643–691 and 699–753) -/

/-- The proximity bound both AO passes compute:
`span := tri.MaxSpan; if other.MaxSpan > span { span = other.MaxSpan };
span *= 0.66`.  The literal `0.66` is idealized as the rational
`33/50`. -/
def aoSpan (s1 s2 : ℚ) : ℚ := max s1 s2 * (33 / 50)

/-- The same-object pass's skip test (model.go line 662): the pair is
skipped when `fastVectorDistanceSquared(tri.Center, other.Center) >
span*span`. -/
def sameObjectAOSkip (c1 c2 : Vec3) (s1 s2 : ℚ) : Bool :=
  decide (aoSpan s1 s2 * aoSpan s1 s2 < Vec3.distSq c1 c2)

/-- The cross-object pass's skip test (model.go line 734): the pair is
skipped when `fastVectorDistanceSquared(transform.MultVec(tri.Center),
otherTransform.MultVec(otherTri.Center)) > span` — the squared distance
is compared against `span` itself, **not** `span*span`. -/
def crossObjectAOSkip (t1 t2 : Matrix4) (c1 c2 : Vec3) (s1 s2 : ℚ) : Bool :=
  decide (aoSpan s1 s2 < Vec3.distSq (t1.multVecPoint c1) (t2.multVecPoint c2))

/-- The skip test as the claim words it for both passes: the squared
centroid distance compared against the square of (0.66 × span). -/
def specAOSkip (c1 c2 : Vec3) (s1 s2 : ℚ) : Bool :=
  decide (aoSpan s1 s2 * aoSpan s1 s2 < Vec3.distSq c1 c2)

/-! ## Helper lemmas -/

lemma skinMatrixLoop_filter_zero (entries : List BoneEntry) :
    ∀ acc, skinMatrixLoop acc (entries.filter fun e => decide (e.weight ≠ 0)) =
      skinMatrixLoop acc entries := by
  induction entries with
  | nil => intro acc; rfl
  | cons e rest ih =>
    intro acc
    simp only [ne_eq, decide_not] at ih ⊢
    by_cases h0 : e.weight = 0
    · rw [List.filter_cons_of_neg (by simp [h0])]
      rw [ih]
      simp [skinMatrixLoop, h0]
    · rw [List.filter_cons_of_pos (by simp [h0])]
      by_cases h1 : e.weight = 1 <;> simp [skinMatrixLoop, h0, h1, ih]

lemma skinMatrixLoop_first_unit (e : BoneEntry) (post : List BoneEntry)
    (he : e.weight = 1) :
    ∀ (pre : List BoneEntry) (acc : Matrix4), (∀ e' ∈ pre, e'.weight ≠ 1) →
      skinMatrixLoop acc (pre ++ e :: post) = e.influence := by
  intro pre
  induction pre with
  | nil =>
    intro acc _
    have h0 : e.weight ≠ 0 := by rw [he]; norm_num
    simp [skinMatrixLoop, h0, he]
  | cons p rest ih =>
    intro acc hp
    have hp1 : p.weight ≠ 1 := hp p (List.mem_cons_self p rest)
    have hrest : ∀ e' ∈ rest, e'.weight ≠ 1 := fun e' h => hp e' (List.mem_cons_of_mem p h)
    by_cases hp0 : p.weight = 0 <;> simp [skinMatrixLoop, hp0, hp1, ih _ hrest]

lemma cross_smul_self (v : Vec3) (k : ℚ) : Vec3.cross v (Vec3.smul k v) = Vec3.zero := by
  simp only [Vec3.cross, Vec3.smul, Vec3.zero, Vec3.mk.injEq]
  refine ⟨by ring, by ring, by ring⟩

lemma smul_cross_self (v : Vec3) (k : ℚ) : Vec3.cross (Vec3.smul k v) v = Vec3.zero := by
  simp only [Vec3.cross, Vec3.smul, Vec3.zero, Vec3.mk.injEq]
  refine ⟨by ring, by ring, by ring⟩

lemma axisStep_eq (e0 e1 q : ℚ) (h : e0 ≤ e1) :
    axisStep e0 e1 q = (min e0 q, max e1 q) := by
  rw [axisStep]
  split_ifs with h1 h2
  · rw [min_eq_right h1.le, max_eq_left (h1.le.trans h)]
  · rw [min_eq_left (le_of_not_lt h1), max_eq_right h2.le]
  · rw [min_eq_left (le_of_not_lt h1), max_eq_left (le_of_not_lt h2)]

lemma foldl_extentStep_eq (l : List Vec3) :
    ∀ e : Vec3 × Vec3, e.1.x ≤ e.2.x → e.1.y ≤ e.2.y → e.1.z ≤ e.2.z →
      l.foldl extentStep e = l.foldl specExtentStep e := by
  induction l with
  | nil => intros; rfl
  | cons v rest ih =>
    intro e hx hy hz
    have hstep : extentStep e v = specExtentStep e v := by
      simp only [extentStep, specExtentStep,
        axisStep_eq _ _ _ hx, axisStep_eq _ _ _ hy, axisStep_eq _ _ _ hz]
    rw [List.foldl_cons, List.foldl_cons, hstep]
    exact ih (specExtentStep e v)
      ((min_le_left _ _).trans (hx.trans (le_max_left _ _)))
      ((min_le_left _ _).trans (hy.trans (le_max_left _ _)))
      ((min_le_left _ _).trans (hz.trans (le_max_left _ _)))

lemma updateBoundsExtents_eq (verts : List Vec3) :
    updateBoundsExtents verts = verts.foldl specExtentStep (Vec3.zero, Vec3.zero) :=
  foldl_extentStep_eq verts (Vec3.zero, Vec3.zero) le_rfl le_rfl le_rfl

lemma alreadyBatched_eq_false_iff (st : BatchState) (x : ModelId) :
    alreadyBatched st x = false ↔ ∀ e ∈ st.batchMap, x ∉ e.2 := by
  simp [alreadyBatched]

lemma not_mem_slice_addToBatchMap (mp : PartId) (m x : ModelId) (hx : x ≠ m) :
    ∀ bm : List (PartId × List ModelId), (∀ e ∈ bm, x ∉ e.2) →
      ∀ e ∈ addToBatchMap mp m bm, x ∉ e.2 := by
  intro bm
  induction bm with
  | nil =>
    intro _ e he
    rw [addToBatchMap] at he
    rcases List.mem_cons.mp he with rfl | h'
    · simpa using hx
    · cases h'
  | cons e0 rest ih =>
    intro h e he
    rw [addToBatchMap] at he
    by_cases h0 : e0.1 = mp
    · rw [if_pos h0] at he
      rcases List.mem_cons.mp he with rfl | hm
      · intro hx2
        rcases List.mem_append.mp hx2 with h' | h'
        · exact h e0 (List.mem_cons_self _ _) h'
        · exact hx (by simpa using h')
      · exact h e (List.mem_cons_of_mem _ hm)
    · rw [if_neg h0] at he
      rcases List.mem_cons.mp he with rfl | hm
      · exact h e (List.mem_cons_self _ _)
      · exact ih (fun e' he' => h e' (List.mem_cons_of_mem _ he')) e hm

lemma batchTriangleCount_addToBatchMap (tc : ModelId → Nat) (mp : PartId) (m : ModelId)
    (os os' : List (ModelId × ModelId)) :
    ∀ bm : List (PartId × List ModelId),
      batchTriangleCount tc ⟨addToBatchMap mp m bm, os'⟩ =
        batchTriangleCount tc ⟨bm, os⟩ + tc m := by
  intro bm
  induction bm with
  | nil => simp [batchTriangleCount, addToBatchMap]
  | cons e rest ih =>
    rw [addToBatchMap]
    by_cases h : e.1 = mp
    · rw [if_pos h]
      simp [batchTriangleCount, List.sum_append]
      omega
    · rw [if_neg h]
      simp only [batchTriangleCount, List.map_cons, List.sum_cons] at ih ⊢
      omega

lemma dynamicBatchAdd_no_error (tc : ModelId → Nat) (self : ModelId) (mp : PartId) :
    ∀ (models : List ModelId) (st : BatchState),
      (∀ m ∈ models, m ≠ self) → models.Nodup →
      (∀ m ∈ models, alreadyBatched st m = false) →
      batchTriangleCount tc st + (models.map tc).sum ≤ maxTriangleCount →
      (dynamicBatchAdd tc self mp models st).2 = false := by
  intro models
  induction models with
  | nil => intro st _ _ _ _; rfl
  | cons m rest ih =>
    intro st hself hnd hbat hbud
    obtain ⟨bm, os⟩ := st
    have hm_self : m ≠ self := hself m (List.mem_cons_self _ _)
    have hm_bat : alreadyBatched ⟨bm, os⟩ m = false := hbat m (List.mem_cons_self _ _)
    have hbud' : batchTriangleCount tc ⟨bm, os⟩ + tc m + (rest.map tc).sum ≤
        maxTriangleCount := by
      simp only [List.map_cons, List.sum_cons] at hbud
      omega
    rw [dynamicBatchAdd]
    rw [if_neg (by simp [hm_self, hm_bat])]
    rw [if_neg (by omega)]
    show (dynamicBatchAdd tc self mp rest
      ⟨addToBatchMap mp m bm, setOwner m self os⟩).2 = false
    apply ih
    · exact fun x hx => hself x (List.mem_cons_of_mem _ hx)
    · exact hnd.of_cons
    · intro x hx
      have hxm : x ≠ m := by
        rintro rfl
        exact (List.nodup_cons.mp hnd).1 hx
      rw [alreadyBatched_eq_false_iff]
      exact not_mem_slice_addToBatchMap mp m x hxm bm
        ((alreadyBatched_eq_false_iff ⟨bm, os⟩ x).mp (hbat x (List.mem_cons_of_mem _ hx)))
    · rw [batchTriangleCount_addToBatchMap tc mp m os]
      omega

lemma removeFirst_sublist (m : ModelId) : ∀ l, List.Sublist (removeFirst m l) l := by
  intro l
  induction l with
  | nil => simp [removeFirst]
  | cons x rest ih =>
    rw [removeFirst]
    by_cases h : x = m
    · rw [if_pos h]; exact List.sublist_cons_self x rest
    · rw [if_neg h]; exact List.Sublist.cons₂ x ih

lemma not_mem_removeFirst_self (m : ModelId) :
    ∀ l : List ModelId, l.Nodup → m ∉ removeFirst m l := by
  intro l
  induction l with
  | nil => intro _; simp [removeFirst]
  | cons x rest ih =>
    intro hnd
    rw [removeFirst]
    by_cases h : x = m
    · rw [if_pos h]; subst h; exact (List.nodup_cons.mp hnd).1
    · rw [if_neg h]
      intro hmem
      rcases List.mem_cons.mp hmem with rfl | hm
      · exact h rfl
      · exact ih (List.nodup_cons.mp hnd).2 hm

lemma not_batched_after_removeStep (m : ModelId) (st : BatchState)
    (hnd : ∀ e ∈ st.batchMap, e.2.Nodup) :
    alreadyBatched (dynamicBatchRemoveStep st m) m = false := by
  rw [alreadyBatched_eq_false_iff]
  intro e he
  simp only [dynamicBatchRemoveStep, removeModelFromMap] at he
  obtain ⟨e0, he0, rfl⟩ := List.mem_map.mp he
  by_cases h : e0.2.contains m
  · simp only [h, if_true]
    exact not_mem_removeFirst_self m e0.2 (hnd e0 he0)
  · simp only [h, if_false]
    simpa using h

lemma not_batched_preserved_removeStep (m m' : ModelId) (st : BatchState)
    (h : alreadyBatched st m = false) :
    alreadyBatched (dynamicBatchRemoveStep st m') m = false := by
  rw [alreadyBatched_eq_false_iff] at h ⊢
  intro e he
  simp only [dynamicBatchRemoveStep, removeModelFromMap] at he
  obtain ⟨e0, he0, rfl⟩ := List.mem_map.mp he
  by_cases hc : e0.2.contains m'
  · simp only [hc, if_true]
    intro hmem
    exact h e0 he0 ((removeFirst_sublist m' e0.2).subset hmem)
  · simp only [hc, if_false]
    exact h e0 he0

lemma nodup_preserved_removeStep (m' : ModelId) (st : BatchState)
    (hnd : ∀ e ∈ st.batchMap, e.2.Nodup) :
    ∀ e ∈ (dynamicBatchRemoveStep st m').batchMap, e.2.Nodup := by
  intro e he
  simp only [dynamicBatchRemoveStep, removeModelFromMap] at he
  obtain ⟨e0, he0, rfl⟩ := List.mem_map.mp he
  by_cases hc : e0.2.contains m'
  · simp only [hc, if_true]
    exact (hnd e0 he0).sublist (removeFirst_sublist m' e0.2)
  · simp only [hc, if_false]
    exact hnd e0 he0

lemma not_batched_foldl_preserved (m : ModelId) :
    ∀ (ms : List ModelId) (st : BatchState), alreadyBatched st m = false →
      alreadyBatched (ms.foldl dynamicBatchRemoveStep st) m = false := by
  intro ms
  induction ms with
  | nil => exact fun st h => h
  | cons x rest ih =>
    intro st h
    exact ih _ (not_batched_preserved_removeStep m x st h)

lemma not_batched_foldl (m : ModelId) :
    ∀ (ms : List ModelId) (st : BatchState), m ∈ ms →
      (∀ e ∈ st.batchMap, e.2.Nodup) →
      alreadyBatched (ms.foldl dynamicBatchRemoveStep st) m = false := by
  intro ms
  induction ms with
  | nil => intro st h; cases h
  | cons x rest ih =>
    intro st hm hnd
    by_cases hx : m = x
    · subst hx
      exact not_batched_foldl_preserved m rest _ (not_batched_after_removeStep m st hnd)
    · exact ih _ ((List.mem_cons.mp hm).resolve_left hx) (nodup_preserved_removeStep x st hnd)

lemma not_batched_after_remove (ms : List ModelId) (m : ModelId) (st : BatchState)
    (hm : m ∈ ms) (hnd : ∀ e ∈ st.batchMap, e.2.Nodup) :
    alreadyBatched (dynamicBatchRemove ms st) m = false := by
  have h := not_batched_foldl m ms st hm hnd
  rw [alreadyBatched_eq_false_iff] at h ⊢
  intro e he
  exact h e (List.mem_of_mem_filter he)

lemma backToFrontLE_trans (a b c : SortingTriangle) :
    backToFrontLE a b → backToFrontLE b c → backToFrontLE a c := by
  simp only [backToFrontLE, decide_eq_true_eq]
  exact fun h1 h2 => h2.trans h1

lemma backToFrontLE_total (a b : SortingTriangle) :
    backToFrontLE a b || backToFrontLE b a := by
  simp only [backToFrontLE, Bool.or_eq_true, decide_eq_true_eq]
  exact le_total b.depth a.depth

lemma frontToBackLE_trans (a b c : SortingTriangle) :
    frontToBackLE a b → frontToBackLE b c → frontToBackLE a c := by
  simp only [frontToBackLE, decide_eq_true_eq]
  exact fun h1 h2 => h1.trans h2

lemma frontToBackLE_total (a b : SortingTriangle) :
    frontToBackLE a b || frontToBackLE b a := by
  simp only [frontToBackLE, Bool.or_eq_true, decide_eq_true_eq]
  exact le_total a.depth b.depth

lemma unitProducesNaN_zero : unitProducesNaN Vec3.zero = true := by
  norm_num [unitProducesNaN, Vec3.dot, Vec3.zero]

lemma multVecW_id4 (v : Vec3) : Matrix4.id4.multVecW v = ⟨v.x, v.y, v.z, 1⟩ := by
  simp [Matrix4.multVecW, Matrix4.id4]

lemma multVecPoint_id4 (v : Vec3) : Matrix4.id4.multVecPoint v = v := by
  rw [Matrix4.multVecPoint, multVecW_id4]

/-! ## Claim theorems -/

/-- C4: `skinVertex` skips zero-weight (bone, weight) entries — the
skin matrix is unchanged by removing them — and on the first entry with
weight exactly 1 the skin matrix becomes that bone's influence matrix
alone, so the transformed position equals applying that bone's
influence matrix directly, with no contribution from any other bone
entry. -/
theorem skinVertex_short_circuit :
    (∀ entries : List BoneEntry,
        computeSkinMatrix (entries.filter fun e => decide (e.weight ≠ 0)) =
          computeSkinMatrix entries) ∧
    (∀ (pre post : List BoneEntry) (e : BoneEntry) (pos : Vec3),
        e.weight = 1 → (∀ e' ∈ pre, e'.weight ≠ 1) →
        computeSkinMatrix (pre ++ e :: post) = e.influence ∧
        skinVertexPos (pre ++ e :: post) pos = e.influence.multVecW pos) := by
  constructor
  · intro entries
    exact skinMatrixLoop_filter_zero entries Matrix4.clear
  · intro pre post e pos he hpre
    have hm : computeSkinMatrix (pre ++ e :: post) = e.influence :=
      skinMatrixLoop_first_unit e post he pre Matrix4.clear hpre
    exact ⟨hm, by rw [skinVertexPos, hm]⟩

/-- Witness for C4: a vertex bound to three bones with weights
3, 1, 5 — the skin matrix is the second bone's influence matrix (the
constant-2 matrix), and the transformed position of `(1,0,0)` is its
image under that matrix alone, unaffected by the first and third
entries. -/
theorem skinVertex_short_circuit_witness :
    computeSkinMatrix
        [⟨Matrix4.id4, 3⟩, ⟨fun _ _ => 2, 1⟩, ⟨Matrix4.id4, 5⟩] =
      (fun _ _ => 2) ∧
    skinVertexPos [⟨Matrix4.id4, 3⟩, ⟨fun _ _ => 2, 1⟩, ⟨Matrix4.id4, 5⟩]
        ⟨1, 0, 0⟩ = ⟨4, 4, 4, 4⟩ := by
  have h := skinVertex_short_circuit.2 [⟨Matrix4.id4, 3⟩] [⟨Matrix4.id4, 5⟩]
    ⟨fun _ _ => 2, 1⟩ ⟨1, 0, 0⟩ rfl (by intro e' he'; simp at he'; rw [he']; norm_num)
  simp only [List.singleton_append] at h
  refine ⟨h.1, ?_⟩
  rw [h.2]
  show Matrix4.multVecW _ _ = _
  simp [Matrix4.multVecW]
  norm_num

/-- C10: `ReassignBones` on a Model whose per-vertex bone list is empty
returns immediately, unchanged and without panicking, whatever the
armature argument is; the fatal bone-instead-of-root check is only
reached when at least one bone binding exists. -/
theorem reassignBones_empty_bones :
    (∀ (boneMap : String → Option String) (rootIsBone : Bool) (rootId : ModelId)
        (st : SkinState), st.bones = [] →
        reassignBones boneMap rootIsBone rootId st = some st) ∧
    (∀ (boneMap : String → Option String) (rootIsBone : Bool) (rootId : ModelId)
        (st : SkinState),
        reassignBones boneMap rootIsBone rootId st = none → st.bones ≠ []) := by
  constructor
  · intro boneMap rootIsBone rootId st h
    simp [reassignBones, h]
  · intro boneMap rootIsBone rootId st hnone hbones
    rw [reassignBones, if_pos (by simp [hbones])] at hnone
    exact Option.noConfusion hnone

/-- Witness for C10: a skinless Model is returned unchanged even when
the new armature argument is a bone. -/
theorem reassignBones_empty_bones_witness :
    reassignBones (fun _ => none) true 7 ⟨none, []⟩ = some ⟨none, []⟩ :=
  reassignBones_empty_bones.1 (fun _ => none) true 7 ⟨none, []⟩ rfl

/-- C9: the three degenerate inputs are silent no-ops: `Merge` with
zero total contributed vertices returns before mutating anything (it
has no error to signal), `BakeAO` with a negative target channel
returns before mutating anything, and `DynamicBatchAdd` of a Model into
itself skips the Model and returns a nil error with the batch state
unchanged. -/
theorem degenerate_inputs_are_noops :
    (∀ (α : Type) (self : ModelId) (models : List (ModelId × Nat)) (body : α → α)
        (st : α), mergeTotalSize self models = 0 →
        mergeGuard self models body st = st) ∧
    (∀ (α : Type) (meshIsNil : Bool) (ch : ℤ) (body : α → α) (st : α),
        ch < 0 → bakeAOGuard meshIsNil ch body st = st) ∧
    (∀ (tc : ModelId → Nat) (self : ModelId) (mp : PartId) (st : BatchState),
        dynamicBatchAdd tc self mp [self] st = (st, false)) := by
  refine ⟨?_, ?_, ?_⟩
  · intro α self models body st h
    simp [mergeGuard, h]
  · intro α meshIsNil ch body st h
    simp [bakeAOGuard, h]
  · intro tc self mp st
    simp [dynamicBatchAdd]

/-- Witness for C9: merging a Model into itself contributes zero
vertices and changes nothing; baking AO to channel −2 changes nothing;
batching a Model into itself returns no error and changes nothing. -/
theorem degenerate_inputs_are_noops_witness :
    mergeGuard 0 [(0, 5)] (fun n => n + 1) (3 : Nat) = 3 ∧
    bakeAOGuard false (-2) (fun n => n + 1) (3 : Nat) = 3 ∧
    dynamicBatchAdd (fun _ => 7) 4 0 [4] ⟨[], []⟩ = (⟨[], []⟩, false) :=
  ⟨degenerate_inputs_are_noops.1 Nat 0 [(0, 5)] _ 3 (by decide),
   degenerate_inputs_are_noops.2.1 Nat false (-2) _ 3 (by decide),
   degenerate_inputs_are_noops.2.2 _ 4 0 ⟨[], []⟩⟩

/-- C5 counterexample: with an empty batch, owner 0 calling
`DynamicBatchAdd(part 0, model 1 (21845 triangles), model 2 (1
triangle))` returns the budget error for model 2, yet model 1 has
already been appended to the batch and its owner reference set — the
call is not atomic, so the batch set and owner references are *not*
left unchanged. -/
theorem dynamicBatchAdd_nonatomic :
    (dynamicBatchAdd (fun m => if m = 1 then 21845 else 1) 0 0 [1, 2] ⟨[], []⟩).2 =
      true ∧
    (dynamicBatchAdd (fun m => if m = 1 then 21845 else 1) 0 0 [1, 2] ⟨[], []⟩).1 ≠
      ⟨[], []⟩ ∧
    (dynamicBatchAdd (fun m => if m = 1 then 21845 else 1) 0 0 [1, 2] ⟨[], []⟩).1 =
      ⟨[(0, [1])], [(1, 0)]⟩ := by
  refine ⟨?_, ?_, ?_⟩ <;> decide

/-- C5 amended: a `DynamicBatchAdd` that would exceed the budget
returns the budget error without adding the offending model or any
later one, but keeps the models added earlier in the same call, so
atomicity holds only for single-model calls: a failing one-model call
leaves the state unchanged.  Any call whose models are not already
batched and fit under the budget succeeds, and in particular a
`DynamicBatchRemove` of the same models followed by re-adding them
succeeds once under budget. -/
theorem dynamicBatchAdd_budget :
    (∀ (tc : ModelId → Nat) (self : ModelId) (mp : PartId) (other : ModelId)
        (st : BatchState),
        other ≠ self → alreadyBatched st other = false →
        maxTriangleCount < batchTriangleCount tc st + tc other →
        dynamicBatchAdd tc self mp [other] st = (st, true)) ∧
    (∀ (tc : ModelId → Nat) (self : ModelId) (mp : PartId) (models : List ModelId)
        (st : BatchState),
        (∀ m ∈ models, m ≠ self) → models.Nodup →
        (∀ m ∈ models, alreadyBatched st m = false) →
        batchTriangleCount tc st + (models.map tc).sum ≤ maxTriangleCount →
        (dynamicBatchAdd tc self mp models st).2 = false) ∧
    (∀ (tc : ModelId → Nat) (self : ModelId) (mp : PartId) (models : List ModelId)
        (st : BatchState),
        (∀ e ∈ st.batchMap, e.2.Nodup) →
        (∀ m ∈ models, m ≠ self) → models.Nodup →
        batchTriangleCount tc (dynamicBatchRemove models st) + (models.map tc).sum ≤
          maxTriangleCount →
        (dynamicBatchAdd tc self mp models (dynamicBatchRemove models st)).2 = false) := by
  refine ⟨?_, fun tc self mp models st => dynamicBatchAdd_no_error tc self mp models st, ?_⟩
  · intro tc self mp other st hns hb hover
    rw [dynamicBatchAdd]
    rw [if_neg (by simp [hns, hb])]
    rw [if_pos hover]
  · intro tc self mp models st hnd hself hmodels hbud
    exact dynamicBatchAdd_no_error tc self mp models (dynamicBatchRemove models st)
      hself hmodels
      (fun m hm => not_batched_after_remove models m st hm hnd) hbud

/-- Witness for C5 amended: a one-model call that would exceed the
budget (30000 triangles against the 21845 maximum) errors and leaves
the empty state unchanged; and for an owner whose batch holds model 1,
removing model 1 and re-adding it (5 triangles) succeeds with no
error. -/
theorem dynamicBatchAdd_budget_witness :
    dynamicBatchAdd (fun _ => 30000) 0 0 [5] ⟨[], []⟩ = (⟨[], []⟩, true) ∧
    (dynamicBatchAdd (fun _ => 5) 0 0 [1]
      (dynamicBatchRemove [1] ⟨[(0, [1])], [(1, 0)]⟩)).2 = false := by
  constructor
  · exact dynamicBatchAdd_budget.1 (fun _ => 30000) 0 0 5 ⟨[], []⟩ (by decide)
      (by decide) (by decide)
  · exact dynamicBatchAdd_budget.2.2 (fun _ => 5) 0 0 [1] ⟨[(0, [1])], [(1, 0)]⟩
      (by decide) (by decide) (by decide) (by decide)

/-- C6 counterexample: for the vertex list
`[(1,0,0), (2,0,0), (1,1,0)]` — which does not straddle the origin —
`UpdateBounds` initializes its extents to the zero vectors, so the
computed bounding sphere (center `(1, 1/2, 0)`, squared radius `5/4`)
differs from the claim's midpoint of the axis-aligned extent of the
vertex positions (center `(3/2, 1/2, 0)`, squared radius `1/2`). -/
theorem updateBounds_not_extent_midpoint :
    specBoundsPosition [⟨1,0,0⟩, ⟨2,0,0⟩, ⟨1,1,0⟩] ≠
      some (updateBounds ⟨[⟨1,0,0⟩, ⟨2,0,0⟩, ⟨1,1,0⟩], Vec3.zero, 0⟩).boundsPosition ∧
    specBoundsRadiusSq [⟨1,0,0⟩, ⟨2,0,0⟩, ⟨1,1,0⟩] ≠
      some (updateBounds ⟨[⟨1,0,0⟩, ⟨2,0,0⟩, ⟨1,1,0⟩], Vec3.zero, 0⟩).boundsRadiusSq ∧
    (updateBounds ⟨[⟨1,0,0⟩, ⟨2,0,0⟩, ⟨1,1,0⟩], Vec3.zero, 0⟩).boundsPosition =
      ⟨1, 1/2, 0⟩ ∧
    specBoundsPosition [⟨1,0,0⟩, ⟨2,0,0⟩, ⟨1,1,0⟩] = some ⟨3/2, 1/2, 0⟩ ∧
    (updateBounds ⟨[⟨1,0,0⟩, ⟨2,0,0⟩, ⟨1,1,0⟩], Vec3.zero, 0⟩).boundsRadiusSq = 5/4 ∧
    specBoundsRadiusSq [⟨1,0,0⟩, ⟨2,0,0⟩, ⟨1,1,0⟩] = some (1/2) := by
  norm_num [updateBounds, boundingSpherePosition, boundingSphereRadiusSq,
    updateBoundsExtents, extentStep, axisStep, Vec3.zero, Vec3.add, Vec3.sub,
    Vec3.smul, Vec3.dot, specBoundsPosition, specBoundsRadiusSq, specExtents,
    specExtentStep, Vec3.mk.injEq]

/-- C6 amended: after `UpdateBounds` (and hence after `ApplyMatrix`,
which transforms the vertices and then calls `UpdateBounds`), the
bounding sphere's center is the midpoint of the axis-aligned extent of
the vertex positions **together with the origin** (the extents start at
the zero vectors), and its radius is half the length of that extent's
diagonal (stated on squares, as the radius is a square root). -/
theorem updateBounds_origin_extent :
    ∀ m : MeshState,
      specBoundsPosition (Vec3.zero :: m.verts) =
        some (updateBounds m).boundsPosition ∧
      specBoundsRadiusSq (Vec3.zero :: m.verts) =
        some (updateBounds m).boundsRadiusSq ∧
      ∀ mat : Matrix4, applyMatrix mat m =
        updateBounds { m with verts := m.verts.map mat.multVecPoint } := by
  intro m
  refine ⟨?_, ?_, fun mat => rfl⟩
  · simp only [specBoundsPosition, specExtents, Option.map_some', updateBounds,
      boundingSpherePosition, updateBoundsExtents_eq]
  · simp only [specBoundsRadiusSq, specExtents, Option.map_some', updateBounds,
      boundingSphereRadiusSq, updateBoundsExtents_eq]

/-- C7 counterexample: for the collinear vertices
`(0,0,0), (1,0,0), (2,0,0)` the cross product computed by
`calculateNormal` is the zero vector, whose magnitude is exactly 0, so
the `Unit()` normalization divides 0 by 0 on every component and the
normal is NaN — not a finite fallback. -/
theorem degenerate_normal_is_nan :
    calculateNormalCross ⟨0,0,0⟩ ⟨1,0,0⟩ ⟨2,0,0⟩ = Vec3.zero ∧
    unitProducesNaN (calculateNormalCross ⟨0,0,0⟩ ⟨1,0,0⟩ ⟨2,0,0⟩) = true := by
  norm_num [calculateNormalCross, Vec3.cross, Vec3.sub, Vec3.zero, Vec3.mk.injEq,
    unitProducesNaN, Vec3.dot]

/-- C7 amended: `RecalculateNormal` normalizes exactly the cross
product of (v1−v0) and (v2−v1); for degenerate (collinear) triangles
that cross product is the zero vector and the normalization divides
each component 0 by magnitude 0, producing NaN — there is no finite
fallback. -/
theorem recalculateNormal_cross_direction :
    (∀ p1 p2 p3 : Vec3,
        calculateNormalCross p1 p2 p3 = specNormalDirection p1 p2 p3) ∧
    (∀ p1 p2 p3 : Vec3, collinearVerts p1 p2 p3 →
        calculateNormalCross p1 p2 p3 = Vec3.zero ∧
        unitProducesNaN (calculateNormalCross p1 p2 p3) = true) := by
  constructor
  · intro p1 p2 p3; rfl
  · intro p1 p2 p3 h
    obtain ⟨k, h | h⟩ := h
    · have hz : calculateNormalCross p1 p2 p3 = Vec3.zero := by
        rw [calculateNormalCross, h]; exact cross_smul_self _ k
      refine ⟨hz, by rw [hz]; exact unitProducesNaN_zero⟩
    · have hz : calculateNormalCross p1 p2 p3 = Vec3.zero := by
        rw [calculateNormalCross, h]; exact smul_cross_self _ k
      refine ⟨hz, by rw [hz]; exact unitProducesNaN_zero⟩

/-- Witness for C7 amended: the collinear triangle
`(0,0,0), (1,1,0), (3,3,0)` has a zero cross product and a NaN
normal. -/
theorem recalculateNormal_cross_direction_witness :
    calculateNormalCross ⟨0,0,0⟩ ⟨1,1,0⟩ ⟨3,3,0⟩ = Vec3.zero ∧
    unitProducesNaN (calculateNormalCross ⟨0,0,0⟩ ⟨1,1,0⟩ ⟨3,3,0⟩) = true :=
  recalculateNormal_cross_direction.2 ⟨0,0,0⟩ ⟨1,1,0⟩ ⟨3,3,0⟩
    ⟨2, Or.inl (by norm_num [Vec3.sub, Vec3.smul, Vec3.mk.injEq])⟩

/-- C8 counterexample: with identity transforms, centroids `(0,0,0)`
and `(10,0,0)` (squared distance 100) and max-vertex-spans 100 and 0
(so `0.66 × span = 66`), the cross-object pass skips the pair
(`100 > 66`), while the claim's squared comparison would keep it
(`100 ≤ 66² = 4356`). -/
theorem crossObject_ao_skip_unsquared :
    crossObjectAOSkip Matrix4.id4 Matrix4.id4 ⟨0,0,0⟩ ⟨10,0,0⟩ 100 0 = true ∧
    specAOSkip ⟨0,0,0⟩ ⟨10,0,0⟩ 100 0 = false := by
  constructor
  · rw [crossObjectAOSkip, multVecPoint_id4, multVecPoint_id4]
    norm_num [aoSpan, Vec3.distSq, Vec3.dot, Vec3.sub]
  · norm_num [specAOSkip, aoSpan, Vec3.distSq, Vec3.dot, Vec3.sub]

/-- C1 counterexample: a skinned triangle (single bone at weight 1,
identity influence and view-projection, far plane 100) whose projected
vertices all satisfy `w ≥ 0 ∧ z < far`, entering the frame with its
`rendered` flag false: the skinned loop of `ProcessVertices` never
assigns `rendered = true`, so the triangle passes the visibility test
yet is not marked rendered. -/
theorem skinned_visible_not_marked_rendered :
    triangleVisible (projectedVertsSkinned Matrix4.id4 (fun _ => [⟨Matrix4.id4, 1⟩])
        (fun _ => ⟨0, 0, 0⟩) none 0) 100 = true ∧
    (processTriSkinned Matrix4.id4 100 (fun _ => [⟨Matrix4.id4, 1⟩])
        (fun _ => ⟨0, 0, 0⟩) none ⟨0, 5, false⟩).rendered = false := by
  have hvis : triangleVisible (projectedVertsSkinned Matrix4.id4
      (fun _ => [⟨Matrix4.id4, 1⟩]) (fun _ => ⟨0, 0, 0⟩) none 0) 100 = true := by
    norm_num [triangleVisible, vertexInBounds, projectedVertsSkinned, skinVertexPos,
      computeSkinMatrix, skinMatrixLoop, applyTransformFunc, multVecW_id4]
  exact ⟨hvis, by simp [processTriSkinned, hvis]⟩

/-- C1 amended: on the non-skinned path a triangle is marked rendered
exactly when at least one of its three projected vertices satisfies
(w ≥ 0 and z < far); on the skinned path a triangle failing that test
is marked not-rendered, but a passing triangle is not marked — it
keeps its prior flag, so it ends rendered iff it passed *and* was
already flagged rendered; the final stable sort only permutes the
triangles and their marks. -/
theorem processVertices_visibility_marking :
    (∀ (mvp : Matrix4) (far : ℚ) (positions : Nat → Vec3)
        (tf : Option (Vec3 → Nat → Vec3)) (tri : SortingTriangle),
        (processTriNonSkinned mvp far positions tf tri).rendered =
          triangleVisible (projectedVertsNonSkinned mvp positions tf tri.id) far) ∧
    (∀ (vp : Matrix4) (far : ℚ) (bd : BoneData) (positions : Nat → Vec3)
        (tf : Option (Vec3 → Nat → Vec3)) (tri : SortingTriangle),
        (processTriSkinned vp far bd positions tf tri).rendered =
          (tri.rendered &&
            triangleVisible (projectedVertsSkinned vp bd positions tf tri.id) far)) ∧
    (∀ (mode : TriangleSortMode) (l : List SortingTriangle),
        List.Perm (sortTriangles mode l) l) := by
  refine ⟨?_, ?_, ?_⟩
  · intro mvp far positions tf tri
    by_cases h : triangleVisible (projectedVertsNonSkinned mvp positions tf tri.id) far <;>
      simp [processTriNonSkinned, h]
  · intro vp far bd positions tf tri
    by_cases h : triangleVisible (projectedVertsSkinned vp bd positions tf tri.id) far <;>
      simp [processTriSkinned, h]
  · intro mode l
    cases mode <;> exact List.mergeSort_perm l _

/-- C2: after `ProcessVertices` (either path) the MeshPart's sorting
triangles are the stable sort of the processed triangles on the depth
key in the part's effective mode: descending depth for back-to-front,
ascending for front-to-back; any two triangles with exactly equal
depth keys keep the relative order they had before the sort, and
re-sorting an already-sorted list leaves it unchanged, so the order is
stable across repeated sorts. -/
theorem processVertices_sort_stable :
    (∀ l : List SortingTriangle,
        (sortTriangles .backToFront l).Pairwise (fun a b => b.depth ≤ a.depth) ∧
        (sortTriangles .frontToBack l).Pairwise (fun a b => a.depth ≤ b.depth)) ∧
    (∀ (mode : TriangleSortMode) (l : List SortingTriangle) (a b : SortingTriangle),
        a.depth = b.depth → List.Sublist [a, b] l →
        List.Sublist [a, b] (sortTriangles mode l)) ∧
    (∀ (mode : TriangleSortMode) (l : List SortingTriangle),
        sortTriangles mode (sortTriangles mode l) = sortTriangles mode l) ∧
    (∀ (mvp : Matrix4) (far : ℚ) (positions : Nat → Vec3)
        (tf : Option (Vec3 → Nat → Vec3)) (msm : Option TriangleSortMode)
        (tris : List SortingTriangle),
        processVerticesNonSkinned mvp far positions tf msm tris =
          sortTriangles (effectiveSortMode msm)
            (processVerticesNonSkinnedUnsorted mvp far positions tf tris)) ∧
    (∀ (vp : Matrix4) (far : ℚ) (bd : BoneData) (positions : Nat → Vec3)
        (tf : Option (Vec3 → Nat → Vec3)) (msm : Option TriangleSortMode)
        (tris : List SortingTriangle),
        processVerticesSkinned vp far bd positions tf msm tris =
          sortTriangles (effectiveSortMode msm)
            (processVerticesSkinnedUnsorted vp far bd positions tf tris)) := by
  refine ⟨?_, ?_, ?_, fun _ _ _ _ _ _ => rfl, fun _ _ _ _ _ _ _ => rfl⟩
  · intro l
    constructor
    · exact (List.sorted_mergeSort backToFrontLE_trans backToFrontLE_total l).imp
        (fun h => by simpa [backToFrontLE] using h)
    · exact (List.sorted_mergeSort frontToBackLE_trans frontToBackLE_total l).imp
        (fun h => by simpa [frontToBackLE] using h)
  · intro mode l a b hdep hsub
    cases mode
    · exact List.pair_sublist_mergeSort backToFrontLE_trans backToFrontLE_total
        (by simp [backToFrontLE, hdep]) hsub
    · exact List.pair_sublist_mergeSort frontToBackLE_trans frontToBackLE_total
        (by simp [frontToBackLE, hdep]) hsub
  · intro mode l
    cases mode
    · exact List.mergeSort_of_sorted
        (List.sorted_mergeSort backToFrontLE_trans backToFrontLE_total l)
    · exact List.mergeSort_of_sorted
        (List.sorted_mergeSort frontToBackLE_trans frontToBackLE_total l)

/-- Witness for C2: two triangles with equal depth key 4, in
construction order, remain in that order after the back-to-front
sort. -/
theorem processVertices_sort_stable_witness :
    List.Sublist [⟨0, 4, true⟩, ⟨1, 4, true⟩]
      (sortTriangles .backToFront [⟨0, 4, true⟩, ⟨1, 4, true⟩]) :=
  processVertices_sort_stable.2.1 .backToFront [⟨0, 4, true⟩, ⟨1, 4, true⟩]
    ⟨0, 4, true⟩ ⟨1, 4, true⟩ rfl (List.Sublist.refl _)

/-- C3 counterexample: two frames identical in every pipeline input
(single weight-1 bone, identity matrices, far plane 50, vertex
`(2,0,0)`, triangle passing the visibility test) but with opposite
incoming `rendered` flags end with opposite flags: on the skinned path
a passing triangle's state is not freshly transitioned that frame — it
merely persists. -/
theorem skinned_no_fresh_transition :
    (processTriSkinned Matrix4.id4 50 (fun _ => [⟨Matrix4.id4, 1⟩])
        (fun _ => ⟨2, 0, 0⟩) none ⟨0, 3, true⟩).rendered = true ∧
    (processTriSkinned Matrix4.id4 50 (fun _ => [⟨Matrix4.id4, 1⟩])
        (fun _ => ⟨2, 0, 0⟩) none ⟨0, 3, false⟩).rendered = false := by
  have hvis : triangleVisible (projectedVertsSkinned Matrix4.id4
      (fun _ => [⟨Matrix4.id4, 1⟩]) (fun _ => ⟨2, 0, 0⟩) none 0) 50 = true := by
    norm_num [triangleVisible, vertexInBounds, projectedVertsSkinned, skinVertexPos,
      computeSkinMatrix, skinMatrixLoop, applyTransformFunc, multVecW_id4]
  exact ⟨by simp [processTriSkinned, hvis], by simp [processTriSkinned, hvis]⟩

/-- C3 amended: on the non-skinned path each triangle's rendered/culled
state is freshly determined once per frame by that frame's visibility
test (it is independent of the incoming flag and depth); on the
skinned path only failing triangles are freshly marked (culled) while
passing triangles retain their previous flag; on both paths no
triangle ends the frame rendered without having passed that frame's
visibility test. -/
theorem processVertices_transition_discipline :
    (∀ (mvp : Matrix4) (far : ℚ) (positions : Nat → Vec3)
        (tf : Option (Vec3 → Nat → Vec3)) (id : Nat) (d d' : ℚ) (b b' : Bool),
        (processTriNonSkinned mvp far positions tf ⟨id, d, b⟩).rendered =
          (processTriNonSkinned mvp far positions tf ⟨id, d', b'⟩).rendered) ∧
    (∀ (vp : Matrix4) (far : ℚ) (bd : BoneData) (positions : Nat → Vec3)
        (tf : Option (Vec3 → Nat → Vec3)) (tri : SortingTriangle),
        triangleVisible (projectedVertsSkinned vp bd positions tf tri.id) far = false →
        (processTriSkinned vp far bd positions tf tri).rendered = false) ∧
    (∀ (vp : Matrix4) (far : ℚ) (bd : BoneData) (positions : Nat → Vec3)
        (tf : Option (Vec3 → Nat → Vec3)) (tri : SortingTriangle),
        triangleVisible (projectedVertsSkinned vp bd positions tf tri.id) far = true →
        (processTriSkinned vp far bd positions tf tri).rendered = tri.rendered) ∧
    (∀ (mvp : Matrix4) (far : ℚ) (positions : Nat → Vec3)
        (tf : Option (Vec3 → Nat → Vec3)) (tri : SortingTriangle),
        (processTriNonSkinned mvp far positions tf tri).rendered = true →
        triangleVisible (projectedVertsNonSkinned mvp positions tf tri.id) far = true) ∧
    (∀ (vp : Matrix4) (far : ℚ) (bd : BoneData) (positions : Nat → Vec3)
        (tf : Option (Vec3 → Nat → Vec3)) (tri : SortingTriangle),
        (processTriSkinned vp far bd positions tf tri).rendered = true →
        triangleVisible (projectedVertsSkinned vp bd positions tf tri.id) far = true) := by
  refine ⟨?_, ?_, ?_, ?_, ?_⟩
  · intro mvp far positions tf id d d' b b'
    by_cases h : triangleVisible (projectedVertsNonSkinned mvp positions tf id) far <;>
      simp [processTriNonSkinned, h]
  · intro vp far bd positions tf tri h
    simp [processTriSkinned, h]
  · intro vp far bd positions tf tri h
    simp [processTriSkinned, h]
  · intro mvp far positions tf tri h
    by_cases hv : triangleVisible (projectedVertsNonSkinned mvp positions tf tri.id) far
    · exact hv
    · simp [processTriNonSkinned, hv] at h
  · intro vp far bd positions tf tri h
    by_cases hv : triangleVisible (projectedVertsSkinned vp bd positions tf tri.id) far
    · exact hv
    · simp [processTriSkinned, hv] at h

/-- Witness for C3 amended: with the far plane at 0 every projected
vertex fails `z < far`, and a skinned triangle entering the frame
flagged rendered is freshly marked culled. -/
theorem processVertices_transition_discipline_witness :
    triangleVisible (projectedVertsSkinned Matrix4.id4 (fun _ => [⟨Matrix4.id4, 1⟩])
        (fun _ => ⟨0, 0, 0⟩) none 0) 0 = false ∧
    (processTriSkinned Matrix4.id4 0 (fun _ => [⟨Matrix4.id4, 1⟩])
        (fun _ => ⟨0, 0, 0⟩) none ⟨0, 9, true⟩).rendered = false := by
  have hvis : triangleVisible (projectedVertsSkinned Matrix4.id4
      (fun _ => [⟨Matrix4.id4, 1⟩]) (fun _ => ⟨0, 0, 0⟩) none 0) 0 = false := by
    norm_num [triangleVisible, vertexInBounds, projectedVertsSkinned, skinVertexPos,
      computeSkinMatrix, skinMatrixLoop, applyTransformFunc, multVecW_id4]
  exact ⟨hvis,
    processVertices_transition_discipline.2.1 Matrix4.id4 0 (fun _ => [⟨Matrix4.id4, 1⟩])
      (fun _ => ⟨0, 0, 0⟩) none ⟨0, 9, true⟩ hvis⟩

/-- C8 amended: the same-object pass compares the squared centroid
distance against the square of `0.66 ×` the larger max-vertex-span,
exactly as the claim states; the cross-object pass instead compares the
squared distance of the world-transformed centroids against
`0.66 × span` itself, not its square. -/
theorem bakeAO_proximity_tests :
    (∀ (c1 c2 : Vec3) (s1 s2 : ℚ),
        sameObjectAOSkip c1 c2 s1 s2 = specAOSkip c1 c2 s1 s2) ∧
    (∀ (t1 t2 : Matrix4) (c1 c2 : Vec3) (s1 s2 : ℚ),
        crossObjectAOSkip t1 t2 c1 c2 s1 s2 =
          decide (max s1 s2 * (33 / 50) <
            Vec3.distSq (t1.multVecPoint c1) (t2.multVecPoint c2))) :=
  ⟨fun _ _ _ _ => rfl, fun _ _ _ _ _ _ => rfl⟩

end Tetra3d
